import Mathlib

/-!
Shallow embedding of the typst compilation driver (`crates/typst/src/lib.rs`)
and the introspection metadata element (`crates/typst/src/introspection/mod.rs`).

The driver's `typeset` loop, `compile`, `deduplicate` and `WorldExt::range`
are translated directly from the source.  Collaborators that live outside the
two source files (the layout engine, the evaluator, the comemo validation
substrate, `Source::range`) are abstracted as explicit parameters: layout is
an oracle mapping the tracked introspector (together with the fresh constraint
and locator passed to the engine) to either a fatal error or a laid-out
document plus the constraint recorded and the delayed errors emitted.
-/

namespace Typst

/-- File identifiers (`FileId` is an interned 16-bit id in the source; the
interning is irrelevant here, so plain naturals). -/
abbrev FileId := Nat

/-- A source span.  `Span::detached()` points into no file; an attached span
carries the id of the file it points into plus its raw number. -/
structure Span where
  fid : Option FileId
  raw : Nat
deriving DecidableEq

/-- The detached span (`Span::detached()`), used for the convergence warning. -/
def Span.detached : Span := ⟨none, 0⟩

/-- `Span::id` returns the identifier of the file the span points into, or
`none` for a detached span. -/
def Span.id (s : Span) : Option FileId := s.fid

/-- Severity of a diagnostic. -/
inductive Severity where
  | error
  | warning
deriving DecidableEq

/-- A source diagnostic: severity, span, message and hints
(`SourceDiagnostic` from the `diag` module). -/
structure SourceDiagnostic where
  severity : Severity
  span : Span
  message : String
  hints : List String
deriving DecidableEq

/-- The warning emitted by `typeset` when layout does not converge within
five attempts, with its hint. -/
def convergenceWarning : SourceDiagnostic :=
  ⟨Severity.warning, Span.detached, "layout did not converge within 5 attempts",
    ["check if any states or queries are updating themselves"]⟩

/-- The tracer: a collector of warnings and delayed errors.  Modelled from the
spec: warnings accumulate, `Tracer::delayed` takes (and thereby clears) the
delayed errors. -/
structure Tracer where
  warnings : List SourceDiagnostic
  delayed : List SourceDiagnostic
deriving DecidableEq

/-- A document is a sequence of pages (`Document { pages, .. }`); the pages
themselves are opaque to the driver. -/
structure Document (Page : Type) where
  pages : List Page
deriving DecidableEq

/-- The introspector, as far as the driver observes it: it is built from a
page list (`Introspector::new(&document.pages)`); its internal indices are
opaque and only consulted through the layout and validation oracles. -/
structure Introspector (Page : Type) where
  pages : List Page
deriving DecidableEq

/-- Build an introspector from a list of pages (`Introspector::new`). -/
def Introspector.new {Page : Type} (pages : List Page) : Introspector Page :=
  ⟨pages⟩

/-- A validation constraint: an opaque record of the introspector facts a
computation consulted.  Modelled from the spec: a constraint is a list of
recorded facts, starting empty. -/
def Constraint (Fact : Type) := List Fact

/-- The fresh, empty constraint (`<Introspector as Validate>::Constraint::new()`). -/
def Constraint.new {Fact : Type} : Constraint Fact := ([] : List Fact)

/-- The locator, as the driver observes it: a monotonic generator of stable
element identities.  Modelled from the spec: a counter. -/
def Locator := Nat

/-- The fresh locator (`Locator::new()`). -/
def Locator.new : Locator := (0 : Nat)

/-- What one successful call of `Content::layout_root` produces, from the
driver's point of view: the laid-out document, the constraint recorded through
the tracked introspector, and the delayed errors the layout pushed into the
tracer. -/
structure LayoutResult (Page Fact : Type) where
  document : Document Page
  constraint : Constraint Fact
  delayed : List SourceDiagnostic

/-- The external collaborators of the `typeset` loop: `layout_root` (invoked
with the engine's introspector, the constraint it is tracked with, and the
locator) and `Introspector::validate`. -/
structure LayoutOracle (Page Fact : Type) where
  layoutRoot : Introspector Page → Constraint Fact → Locator →
    Except (List SourceDiagnostic) (LayoutResult Page Fact)
  validate : Introspector Page → Constraint Fact → Bool

/-- The body of `typeset`'s relayout loop, translated from
`crates/typst/src/lib.rs` lines 113-152.  Each round clears the delayed
errors, invokes layout with a fresh constraint and a fresh locator, rebuilds
the introspector from the produced document's pages and increments `iter`;
it stops when the new introspector validates the recorded constraint, or,
with a warning, when `iter` reaches five. -/
def typesetAux {Page Fact : Type} (O : LayoutOracle Page Fact) (tracer : Tracer)
    (introspector : Introspector Page) (iter : Nat) :
    Except (List SourceDiagnostic) (Document Page × Tracer × Nat) :=
  match O.layoutRoot introspector Constraint.new Locator.new with
  | .error e => .error e
  | .ok r =>
    let tracer1 : Tracer := ⟨tracer.warnings, r.delayed⟩
    if O.validate (Introspector.new r.document.pages) r.constraint then
      .ok (r.document, tracer1, iter + 1)
    else if h5 : iter + 1 ≥ 5 then
      .ok (r.document, ⟨tracer1.warnings ++ [convergenceWarning], tracer1.delayed⟩, iter + 1)
    else
      typesetAux O tracer1 (Introspector.new r.document.pages) (iter + 1)
termination_by 5 - iter
decreasing_by omega

/-- Promotion of delayed errors after the loop (`lib.rs` lines 154-160):
if delayed errors accumulated, they are the failure; otherwise the document
is returned. -/
def promoteDelayed {Page : Type}
    (res : Except (List SourceDiagnostic) (Document Page × Tracer × Nat)) :
    Except (List SourceDiagnostic) (Document Page) :=
  match res with
  | .error e => .error e
  | .ok (document, tracer, _) =>
    if tracer.delayed.isEmpty then .ok document else .error tracer.delayed

/-- `typeset`: relayout until introspection converges, starting from an
introspector built from an empty page list, then promote delayed errors. -/
def typeset {Page Fact : Type} (O : LayoutOracle Page Fact) (tracer : Tracer) :
    Except (List SourceDiagnostic) (Document Page) :=
  promoteDelayed (typesetAux O tracer (Introspector.new []) 0)

/-- The dedup key of a diagnostic: the 128-bit hash of the pair
`(span, message)` (`hash128(&(&diag.span, &diag.message))`); the hash function
itself is opaque, so it is a parameter. -/
def dedupKey (hash : Span × String → Nat) (d : SourceDiagnostic) : Nat :=
  hash (d.span, d.message)

/-- The retain pass of `deduplicate`: `unique` is the set of hashes inserted
so far; a diagnostic is kept exactly when inserting its key succeeds, i.e.
when the key is not yet in the set. -/
def dedupAux (hash : Span × String → Nat) (unique : List Nat) :
    List SourceDiagnostic → List SourceDiagnostic
  | [] => []
  | d :: rest =>
    if dedupKey hash d ∈ unique then dedupAux hash unique rest
    else d :: dedupAux hash (dedupKey hash d :: unique) rest

/-- Deduplicate diagnostics (`lib.rs` lines 164-171). -/
def deduplicate (hash : Span × String → Nat) (diags : List SourceDiagnostic) :
    List SourceDiagnostic :=
  dedupAux hash [] diags

/-- Specification-side deduplication, following the spec's words: walk the
sequence keeping a diagnostic exactly when no earlier diagnostic of the
sequence (kept or dropped) has the same hash of (span, message); `seen` holds
the keys of all earlier diagnostics. -/
def dedupSpecAux (hash : Span × String → Nat) (seen : List Nat) :
    List SourceDiagnostic → List SourceDiagnostic
  | [] => []
  | d :: rest =>
    if dedupKey hash d ∈ seen then dedupSpecAux hash (seen ++ [dedupKey hash d]) rest
    else d :: dedupSpecAux hash (seen ++ [dedupKey hash d]) rest

/-- Specification-side deduplication, starting with no earlier diagnostics. -/
def dedupSpec (hash : Span × String → Nat) (diags : List SourceDiagnostic) :
    List SourceDiagnostic :=
  dedupSpecAux hash [] diags

/-- `compile` (`lib.rs` lines 87-102): evaluate the main source (abstracted
as its result), deduplicating its errors on failure, then typeset the content,
deduplicating the errors of that as well. -/
def compile {Page Fact : Type} (hash : Span × String → Nat)
    (evalResult : Except (List SourceDiagnostic) Unit)
    (O : LayoutOracle Page Fact) (tracer : Tracer) :
    Except (List SourceDiagnostic) (Document Page) :=
  match evalResult with
  | .error e => .error (deduplicate hash e)
  | .ok _ =>
    match typeset O tracer with
    | .error e => .error (deduplicate hash e)
    | .ok document => .ok document

/-- A parsed source file, as far as `WorldExt::range` observes it.  Modelled
from the spec: a source carries a byte-range index; `Source::range` (outside
the two source files, with result type `Option<Range<usize>>` forced by the
call site) maps a span to its byte range in this file, if it has one. -/
structure Source where
  range : Span → Option (Nat × Nat)

/-- The world, restricted to the single method `WorldExt::range` consults:
`source(id)` returns a source file or a file error. -/
structure World (E : Type) where
  source : FileId → Except E Source

/-- `WorldExt::range` (`lib.rs` lines 238-242):
`self.source(span.id()?).ok()?.range(span)`. -/
def WorldExt.range {E : Type} (w : World E) (span : Span) : Option (Nat × Nat) :=
  match span.id with
  | none => none
  | some fid =>
    match w.source fid with
    | .error _ => none
    | .ok src => src.range span

/-- Meta information that isn't visible or renderable
(`introspection/mod.rs` lines 70-87); destinations, content, numberings and
PDF page labels are opaque. -/
inductive Meta (D C N L : Type) where
  | link (dest : D)
  | elem (content : C)
  | pageNumbering (numbering : Option N)
  | pdfPageLabel (label : L)
  | hide

/-- Behaviour of an element during realization.  Modelled from the spec: the
`Behave` collaborator trait's behaviour kinds; only `invisible` matters here. -/
inductive Behaviour where
  | weak (priority : Nat)
  | destructive
  | ignorant
  | supportive
  | invisible

/-- The `MetaElem` element (`introspection/mod.rs` lines 56-62): its `data`
field is the set of Meta annotations of a style scope. -/
structure MetaElem (D C N L : Type) where
  data : List (Meta D C N L)

/-- The `Behave` impl for `MetaElem` (`introspection/mod.rs` lines 64-68):
its behaviour is `Invisible`. -/
def MetaElem.behaviour {D C N L : Type} (_e : MetaElem D C N L) : Behaviour :=
  Behaviour.invisible

/-- Folding of the `data` field with an outer scope's value.  Modelled from
the spec: the `#[fold]` attribute makes nested scopes accumulate the Meta
sets (inner extended with outer) rather than replace them. -/
def MetaElem.foldData {D C N L : Type} (inner outer : List (Meta D C N L)) :
    List (Meta D C N L) :=
  inner ++ outer

/-! Concrete instances used by witnesses and counterexamples. -/

/-- A concrete empty document over `Nat` pages. -/
def doc0 : Document Nat := ⟨[]⟩

/-- A layout oracle that lays out the empty document and always validates. -/
def oracleOk : LayoutOracle Nat Nat :=
  ⟨fun _ _ _ => .ok ⟨doc0, Constraint.new, []⟩, fun _ _ => true⟩

/-- A layout oracle extensionally equal to `oracleOk` but syntactically
different. -/
def oracleOk2 : LayoutOracle Nat Nat :=
  ⟨fun _ _ _ => .ok ⟨doc0, Constraint.new, []⟩, fun _ _ => decide (1 = 1)⟩

/-- A layout oracle whose introspections never validate. -/
def oracleDiverge : LayoutOracle Nat Nat :=
  ⟨fun _ _ _ => .ok ⟨doc0, Constraint.new, []⟩, fun _ _ => false⟩

/-- A concrete diagnostic. -/
def diagC : SourceDiagnostic := ⟨Severity.error, Span.detached, "duplicate error", []⟩

/-- A layout oracle whose layout fails fatally with `diagC`. -/
def oracleErr : LayoutOracle Nat Nat :=
  ⟨fun _ _ _ => .error [diagC], fun _ _ => true⟩

/-- A layout oracle that succeeds, validates, and leaves `diagC` delayed. -/
def oracleDelayed : LayoutOracle Nat Nat :=
  ⟨fun _ _ _ => .ok ⟨doc0, Constraint.new, [diagC]⟩, fun _ _ => true⟩

/-- The empty tracer. -/
def tr0 : Tracer := ⟨[], []⟩

/-- A concrete collision-happy hash function for the dedup witnesses. -/
def hashC : Span × String → Nat := fun _ => 0

/-- A concrete source file in which no span has a byte range. -/
def srcNone : Source := ⟨fun _ => none⟩

/-- A world whose every file loads fine, as `srcNone`. -/
def worldOkNone : World Unit := ⟨fun _ => .ok srcNone⟩

/-- A concrete span attached to file 0. -/
def spanC : Span := ⟨some 0, 7⟩

end Typst

namespace Typst

variable {Page Fact : Type}

/-! Helper lemmas about the typeset loop. -/

/-- One successful round that validates breaks out of the loop with the
freshly laid-out document. -/
theorem typesetAux_break (O : LayoutOracle Page Fact) (tracer : Tracer)
    (introspector : Introspector Page) (iter : Nat) (r : LayoutResult Page Fact)
    (hok : O.layoutRoot introspector Constraint.new Locator.new = .ok r)
    (hval : O.validate (Introspector.new r.document.pages) r.constraint = true) :
    typesetAux O tracer introspector iter
      = .ok (r.document, ⟨tracer.warnings, r.delayed⟩, iter + 1) := by
  rw [typesetAux.eq_def, hok]
  simp [hval]

/-- One successful round that does not validate, before the cap, continues
with the introspector rebuilt from the new document pages. -/
theorem typesetAux_continue (O : LayoutOracle Page Fact) (tracer : Tracer)
    (introspector : Introspector Page) (iter : Nat) (r : LayoutResult Page Fact)
    (hok : O.layoutRoot introspector Constraint.new Locator.new = .ok r)
    (hval : O.validate (Introspector.new r.document.pages) r.constraint = false)
    (hiter : iter + 1 < 5) :
    typesetAux O tracer introspector iter
      = typesetAux O ⟨tracer.warnings, r.delayed⟩ (Introspector.new r.document.pages)
          (iter + 1) := by
  conv_lhs => rw [typesetAux.eq_def]
  rw [hok]
  simp [hval]
  omega

/-- Case analysis on a completed run of the loop: the iteration count
strictly grows and never exceeds five, and the run leaves the warnings
untouched after a validating round, or appends exactly one convergence
warning after round five failed to validate. -/
theorem typesetAux_ok_cases (O : LayoutOracle Page Fact) :
    ∀ (b iter : Nat), iter + b = 4 →
    ∀ (tracer : Tracer) (introspector : Introspector Page) (doc : Document Page)
      (tr' : Tracer) (n : Nat),
    typesetAux O tracer introspector iter = .ok (doc, tr', n) →
    iter < n ∧ n ≤ 5 ∧
    ((tr'.warnings = tracer.warnings ∧
        ∃ i r, O.layoutRoot i Constraint.new Locator.new = .ok r ∧ doc = r.document ∧
          O.validate (Introspector.new r.document.pages) r.constraint = true) ∨
      (n = 5 ∧ tr'.warnings = tracer.warnings ++ [convergenceWarning] ∧
        ∃ i r, O.layoutRoot i Constraint.new Locator.new = .ok r ∧ doc = r.document ∧
          O.validate (Introspector.new r.document.pages) r.constraint = false)) := by
  intro b
  induction b with
  | zero =>
    intro iter hiter tracer introspector doc tr' n h
    have hiter4 : iter = 4 := by omega
    subst hiter4
    rw [typesetAux.eq_def] at h
    rcases hl : O.layoutRoot introspector Constraint.new Locator.new with e | r <;> rw [hl] at h
    · simp at h
    · rcases hvv : O.validate (Introspector.new r.document.pages) r.constraint with _ | _ <;>
        simp [hvv] at h
      · obtain ⟨hdoc, htr, hn⟩ := h
        refine ⟨by omega, by omega, Or.inr ⟨by omega, ?_, introspector, r, hl, hdoc.symm, hvv⟩⟩
        rw [← htr]
      · obtain ⟨hdoc, htr, hn⟩ := h
        exact ⟨by omega, by omega, Or.inl ⟨by rw [← htr], introspector, r, hl, hdoc.symm, hvv⟩⟩
  | succ b ih =>
    intro iter hiter tracer introspector doc tr' n h
    rw [typesetAux.eq_def] at h
    rcases hl : O.layoutRoot introspector Constraint.new Locator.new with e | r <;> rw [hl] at h
    · simp at h
    · rcases hvv : O.validate (Introspector.new r.document.pages) r.constraint with _ | _ <;>
        simp [hvv] at h
      · rw [if_neg (by omega)] at h
        obtain ⟨h1, h2, h3⟩ := ih (iter + 1) (by omega) _ _ _ _ _ h
        refine ⟨by omega, h2, ?_⟩
        rcases h3 with ⟨hw, hex⟩ | ⟨hn, hw, hex⟩
        · exact Or.inl ⟨hw, hex⟩
        · exact Or.inr ⟨hn, hw, hex⟩
      · obtain ⟨hdoc, htr, hn⟩ := h
        exact ⟨by omega, by omega, Or.inl ⟨by rw [← htr], introspector, r, hl, hdoc.symm, hvv⟩⟩

/-- The loop consults its oracles only through `layoutRoot` applied to the
fresh constraint and the fresh locator, and through `validate`: two oracles
that agree there produce identical runs. -/
theorem typesetAux_congr (O O' : LayoutOracle Page Fact)
    (hl : ∀ i, O'.layoutRoot i Constraint.new Locator.new
      = O.layoutRoot i Constraint.new Locator.new)
    (hv : ∀ i c, O'.validate i c = O.validate i c) :
    ∀ (b iter : Nat), 5 - iter ≤ b → ∀ (tracer : Tracer) (introspector : Introspector Page),
    typesetAux O' tracer introspector iter = typesetAux O tracer introspector iter := by
  intro b
  induction b with
  | zero =>
    intro iter hiter tracer introspector
    rw [typesetAux.eq_def, typesetAux.eq_def, hl]
    cases hr : O.layoutRoot introspector Constraint.new Locator.new with
    | error e => rfl
    | ok r =>
      simp only [hv]
      by_cases hvv : O.validate (Introspector.new r.document.pages) r.constraint = true
      · simp only [hvv, if_true]
      · simp only [hvv, if_false]
        rw [dif_pos (by omega), dif_pos (by omega)]
  | succ b ih =>
    intro iter hiter tracer introspector
    rw [typesetAux.eq_def, typesetAux.eq_def, hl]
    cases hr : O.layoutRoot introspector Constraint.new Locator.new with
    | error e => rfl
    | ok r =>
      simp only [hv]
      by_cases hvv : O.validate (Introspector.new r.document.pages) r.constraint = true
      · simp only [hvv, if_true]
      · simp only [hvv, if_false]
        by_cases h5 : iter + 1 >= 5
        · rw [dif_pos h5, dif_pos h5]
        · rw [dif_neg h5, dif_neg h5]
          exact ih (iter + 1) (by omega) _ _

/-! Helper lemmas about deduplication. -/

/-- The retain pass agrees with the specification pass: remembering only the
keys of kept diagnostics equals remembering the keys of all earlier
diagnostics, because a dropped diagnostic contributes a key that is already
present. -/
theorem dedupAux_eq_spec (hash : Span × String → Nat) :
    ∀ (X : List SourceDiagnostic) (seen seen' : List Nat),
    (∀ a, a ∈ seen ↔ a ∈ seen') →
    dedupAux hash seen X = dedupSpecAux hash seen' X := by
  intro X
  induction X with
  | nil => intro seen seen' h; rfl
  | cons d rest ih =>
    intro seen seen' h
    by_cases hm : dedupKey hash d ∈ seen
    · have hm' : dedupKey hash d ∈ seen' := (h _).1 hm
      simp only [dedupAux, dedupSpecAux, if_pos hm, if_pos hm']
      refine ih _ _ (fun a => ⟨fun ha => ?_, fun ha => ?_⟩)
      · exact List.mem_append_left _ ((h a).1 ha)
      · rcases List.mem_append.1 ha with ha | ha
        · exact (h a).2 ha
        · simp at ha; subst ha; exact hm
    · have hm' : dedupKey hash d ∉ seen' := fun c => hm ((h _).2 c)
      simp only [dedupAux, dedupSpecAux, if_neg hm, if_neg hm']
      refine congrArg (d :: ·) (ih _ _ (fun a => ?_))
      simp only [List.mem_cons, List.mem_append, List.mem_singleton]
      constructor
      · rintro (ha | ha)
        · exact Or.inr (Or.inl ha)
        · exact Or.inl ((h a).1 ha)
      · rintro (ha | ha | ha)
        · exact Or.inr ((h a).2 ha)
        · exact Or.inl ha
        · exact absurd ha (List.not_mem_nil a)

/-- The retain pass keeps a subsequence of its input. -/
theorem dedupAux_sublist (hash : Span × String → Nat) :
    ∀ (X : List SourceDiagnostic) (seen : List Nat), (dedupAux hash seen X).Sublist X := by
  intro X
  induction X with
  | nil => intro seen; simp [dedupAux]
  | cons d rest ih =>
    intro seen
    by_cases hm : dedupKey hash d ∈ seen
    · simp only [dedupAux, if_pos hm]
      exact (ih seen).cons d
    · simp only [dedupAux, if_neg hm]
      exact (ih _).cons₂ d

/-- The kept diagnostics have pairwise distinct dedup keys, none of them
already seen. -/
theorem dedupAux_keys_nodup (hash : Span × String → Nat) :
    ∀ (X : List SourceDiagnostic) (seen : List Nat),
    ((dedupAux hash seen X).map (dedupKey hash)).Nodup ∧
      ∀ d ∈ dedupAux hash seen X, dedupKey hash d ∉ seen := by
  intro X
  induction X with
  | nil => intro seen; simp [dedupAux]
  | cons d rest ih =>
    intro seen
    by_cases hm : dedupKey hash d ∈ seen
    · simp only [dedupAux, if_pos hm]
      exact ih seen
    · simp only [dedupAux, if_neg hm, List.map_cons, List.nodup_cons]
      refine ⟨⟨?_, (ih _).1⟩, ?_⟩
      · intro hc
        rcases List.mem_map.1 hc with ⟨d', hd', hk⟩
        exact (ih _).2 d' hd' (by rw [hk]; exact List.mem_cons_self _ _)
      · intro d' hd'
        rcases List.mem_cons.1 hd' with hd' | hd'
        · subst hd'; exact hm
        · intro hc
          exact (ih _).2 d' hd' (List.mem_cons_of_mem _ hc)

/-- The retain pass is idempotent for any starting set of seen keys. -/
theorem dedupAux_idem (hash : Span × String → Nat) :
    ∀ (X : List SourceDiagnostic) (seen : List Nat),
    dedupAux hash seen (dedupAux hash seen X) = dedupAux hash seen X := by
  intro X
  induction X with
  | nil => intro seen; rfl
  | cons d rest ih =>
    intro seen
    by_cases hm : dedupKey hash d ∈ seen
    · simp only [dedupAux, if_pos hm]
      exact ih seen
    · simp only [dedupAux, if_neg hm]
      rw [ih]

end Typst

namespace Typst

/-! Claim theorems. -/

/-- C1: the typeset loop performs at most five layout iterations; a completed
run either ended in a round whose constraint validated, leaving the warnings
untouched, or ended at round five with a failed validation, emitting exactly
one "layout did not converge within 5 attempts" warning (with its hint, which
is part of `convergenceWarning`) and accepting the last laid-out document. -/
theorem typeset_loop_bounded_by_five {Page Fact : Type} (O : LayoutOracle Page Fact)
    (tracer : Tracer) (doc : Document Page) (tr' : Tracer) (n : Nat)
    (h : typesetAux O tracer (Introspector.new []) 0 = .ok (doc, tr', n)) :
    1 ≤ n ∧ n ≤ 5 ∧
    ((tr'.warnings = tracer.warnings ∧
        ∃ i r, O.layoutRoot i Constraint.new Locator.new = .ok r ∧ doc = r.document ∧
          O.validate (Introspector.new r.document.pages) r.constraint = true) ∨
      (n = 5 ∧ tr'.warnings = tracer.warnings ++ [convergenceWarning] ∧
        ∃ i r, O.layoutRoot i Constraint.new Locator.new = .ok r ∧ doc = r.document ∧
          O.validate (Introspector.new r.document.pages) r.constraint = false)) := by
  obtain ⟨h1, h2, h3⟩ := typesetAux_ok_cases O 4 0 rfl tracer (Introspector.new []) doc tr' n h
  exact ⟨h1, h2, h3⟩

/-- C1 witness: the never-validating oracle runs exactly five iterations and
gains the convergence warning. -/
theorem typeset_loop_bounded_by_five_witness :
    1 ≤ 5 ∧ 5 ≤ 5 ∧
    (((⟨[convergenceWarning], []⟩ : Tracer).warnings = tr0.warnings ∧
        ∃ i r, oracleDiverge.layoutRoot i Constraint.new Locator.new = .ok r ∧
          doc0 = r.document ∧
          oracleDiverge.validate (Introspector.new r.document.pages) r.constraint = true) ∨
      (5 = 5 ∧
        (⟨[convergenceWarning], []⟩ : Tracer).warnings = tr0.warnings ++ [convergenceWarning] ∧
        ∃ i r, oracleDiverge.layoutRoot i Constraint.new Locator.new = .ok r ∧
          doc0 = r.document ∧
          oracleDiverge.validate (Introspector.new r.document.pages) r.constraint = false)) :=
  typeset_loop_bounded_by_five oracleDiverge tr0 doc0 ⟨[convergenceWarning], []⟩ 5
    (by simp [typesetAux, oracleDiverge, tr0])

/-- C2 counterexample: with an oracle whose validations always fail, the loop
exits after iteration five even though the constraint recorded during that
iteration does not validate against the introspector built from the produced
document pages: exiting is not equivalent to validating. -/
theorem typeset_exit_iff_validate_counterexample :
    oracleDiverge.validate (Introspector.new doc0.pages) Constraint.new = false ∧
    typesetAux oracleDiverge tr0 (Introspector.new []) 0
      = .ok (doc0, ⟨[convergenceWarning], []⟩, 5) :=
  ⟨rfl, by simp [typesetAux, oracleDiverge, tr0]⟩

/-- C2 (amended): in every iteration of the typeset loop that is not the
fifth, after layout produces a document a new introspector is built from the
document pages; the loop exits without further layout exactly when the
recorded constraint validates against this new introspector, and otherwise
layout is re-run against the new introspector. -/
theorem typeset_exit_iff_validate {Page Fact : Type} (O : LayoutOracle Page Fact)
    (tracer : Tracer) (introspector : Introspector Page) (iter : Nat)
    (r : LayoutResult Page Fact)
    (hok : O.layoutRoot introspector Constraint.new Locator.new = .ok r)
    (hiter : iter + 1 < 5) :
    (O.validate (Introspector.new r.document.pages) r.constraint = true →
      typesetAux O tracer introspector iter
        = .ok (r.document, ⟨tracer.warnings, r.delayed⟩, iter + 1)) ∧
    (O.validate (Introspector.new r.document.pages) r.constraint = false →
      typesetAux O tracer introspector iter
        = typesetAux O ⟨tracer.warnings, r.delayed⟩ (Introspector.new r.document.pages)
            (iter + 1)) :=
  ⟨fun hv => typesetAux_break O tracer introspector iter r hok hv,
   fun hv => typesetAux_continue O tracer introspector iter r hok hv hiter⟩

/-- C2 witness: a failed validation in round one re-runs layout against the
introspector rebuilt from the produced document pages. -/
theorem typeset_exit_iff_validate_witness :
    typesetAux oracleDiverge tr0 (Introspector.new []) 0
      = typesetAux oracleDiverge ⟨tr0.warnings, []⟩ (Introspector.new doc0.pages) 1 :=
  (typeset_exit_iff_validate oracleDiverge tr0 (Introspector.new []) 0
    ⟨doc0, Constraint.new, []⟩ rfl (by omega)).2 rfl

/-- C3: when the loop finishes, a non-empty set of delayed errors carried by
the tracer is returned as the failure of typeset, and with no delayed errors
the document is returned. -/
theorem typeset_promotes_delayed {Page Fact : Type} (O : LayoutOracle Page Fact)
    (tracer : Tracer) (doc : Document Page) (tr' : Tracer) (n : Nat)
    (h : typesetAux O tracer (Introspector.new []) 0 = .ok (doc, tr', n)) :
    (tr'.delayed = [] → typeset O tracer = .ok doc) ∧
    (tr'.delayed ≠ [] → typeset O tracer = .error tr'.delayed) := by
  unfold typeset promoteDelayed
  rw [h]
  constructor
  · intro hd
    simp [hd]
  · intro hd
    simp [hd]

/-- C3 witness: a converging run that left one delayed error fails with
exactly that error. -/
theorem typeset_promotes_delayed_witness :
    typeset oracleDelayed tr0 = .error [diagC] :=
  (typeset_promotes_delayed oracleDelayed tr0 doc0 ⟨[], [diagC]⟩ 1
    (by simp [typesetAux, oracleDelayed, tr0])).2 (by simp)

/-- C9: a fatal layout error is returned immediately by the typeset loop, at
any iteration and for any tracer state (so delayed errors are neither
promoted nor included), and typeset as a whole fails with exactly that
error. -/
theorem typeset_fatal_error_short_circuits {Page Fact : Type}
    (O : LayoutOracle Page Fact) (introspector : Introspector Page)
    (e : List SourceDiagnostic)
    (herr : O.layoutRoot introspector Constraint.new Locator.new = .error e) :
    (∀ (tracer : Tracer) (iter : Nat), typesetAux O tracer introspector iter = .error e) ∧
    (introspector = Introspector.new [] → ∀ tracer : Tracer, typeset O tracer = .error e) := by
  have h1 : ∀ (tracer : Tracer) (iter : Nat),
      typesetAux O tracer introspector iter = .error e := by
    intro tracer iter
    rw [typesetAux.eq_def, herr]
  refine ⟨h1, ?_⟩
  intro hintro tracer
  subst hintro
  unfold typeset
  rw [h1 tracer 0]
  rfl

/-- C9 witness: a fatally erroring layout makes typeset fail with that error,
even when the tracer carries delayed errors. -/
theorem typeset_fatal_error_short_circuits_witness :
    typesetAux oracleErr (⟨[], [diagC]⟩ : Tracer) (Introspector.new []) 0 = .error [diagC] ∧
    typeset oracleErr tr0 = .error [diagC] :=
  ⟨(typeset_fatal_error_short_circuits oracleErr (Introspector.new []) [diagC] rfl).1
      ⟨[], [diagC]⟩ 0,
   (typeset_fatal_error_short_circuits oracleErr (Introspector.new []) [diagC] rfl).2 rfl tr0⟩

end Typst

namespace Typst

/-- C4: a failing compile returns a deduplicated diagnostic sequence: the
returned sequence is already first-occurrence-filtered (a fixpoint of the
specification filter) with pairwise distinct (span, message) hashes, and
deduplication itself keeps a diagnostic exactly when no earlier diagnostic
has the same hash, preserving the original order (a sublist) with the first
occurrence kept. -/
theorem compile_failure_deduplicated {Page Fact : Type} (hash : Span × String → Nat)
    (evalResult : Except (List SourceDiagnostic) Unit) (O : LayoutOracle Page Fact)
    (tracer : Tracer) (e : List SourceDiagnostic)
    (hc : compile hash evalResult O tracer = .error e) :
    e = dedupSpec hash e ∧
    (e.map (dedupKey hash)).Nodup ∧
    (∀ X, deduplicate hash X = dedupSpec hash X ∧
      (deduplicate hash X).Sublist X ∧
      ((deduplicate hash X).map (dedupKey hash)).Nodup) := by
  have hchar : ∀ X, deduplicate hash X = dedupSpec hash X := fun X =>
    dedupAux_eq_spec hash X [] [] (fun a => Iff.rfl)
  have himg : ∃ X, e = deduplicate hash X := by
    unfold compile at hc
    cases evalResult with
    | error e0 =>
      simp at hc
      exact ⟨e0, hc.symm⟩
    | ok u =>
      cases ht : typeset O tracer with
      | error e1 =>
        rw [ht] at hc
        simp at hc
        exact ⟨e1, hc.symm⟩
      | ok d =>
        rw [ht] at hc
        simp at hc
  obtain ⟨X, hX⟩ := himg
  have h1 : deduplicate hash e = e := by
    rw [hX]
    exact dedupAux_idem hash X []
  have h2 := (dedupAux_keys_nodup hash e []).1
  rw [show dedupAux hash [] e = e from h1] at h2
  exact ⟨by rw [← hchar e, h1], h2,
    fun X => ⟨hchar X, dedupAux_sublist hash X [], (dedupAux_keys_nodup hash X []).1⟩⟩

/-- C4 witness: a compile failing with a duplicated evaluation error returns
the single deduplicated diagnostic. -/
theorem compile_failure_deduplicated_witness :
    [diagC] = dedupSpec hashC [diagC] ∧
    ([diagC].map (dedupKey hashC)).Nodup ∧
    (∀ X, deduplicate hashC X = dedupSpec hashC X ∧
      (deduplicate hashC X).Sublist X ∧
      ((deduplicate hashC X).map (dedupKey hashC)).Nodup) :=
  compile_failure_deduplicated hashC (.error [diagC, diagC]) oracleOk tr0 [diagC] rfl

/-- C5: deduplication is idempotent. -/
theorem deduplicate_idempotent (hash : Span × String → Nat) (X : List SourceDiagnostic) :
    deduplicate hash (deduplicate hash X) = deduplicate hash X :=
  dedupAux_idem hash X []

/-- C6: the typeset loop depends on its layout collaborator only through
calls with the fresh empty constraint and the fresh locator (so each iteration
passes freshly constructed ones), the constraint and locator constructors are
the empty ones, typeset enters the loop with an introspector built from an
empty page list, and after a failed validation the loop continues solely from
the introspector rebuilt from the produced document pages, discarding the
previous one. -/
theorem typeset_fresh_constraint_and_locator {Page Fact : Type}
    (O O' : LayoutOracle Page Fact)
    (hl : ∀ i, O'.layoutRoot i Constraint.new Locator.new
      = O.layoutRoot i Constraint.new Locator.new)
    (hv : ∀ i c, O'.validate i c = O.validate i c) :
    (Constraint.new : Constraint Fact) = [] ∧
    Locator.new = (0 : Nat) ∧
    (∀ tracer : Tracer, typeset O' tracer = typeset O tracer) ∧
    (∀ tracer : Tracer,
      typeset O tracer = promoteDelayed (typesetAux O tracer (Introspector.new []) 0)) ∧
    (∀ (tracer : Tracer) (r : LayoutResult Page Fact),
      O.layoutRoot (Introspector.new []) Constraint.new Locator.new = .ok r →
      O.validate (Introspector.new r.document.pages) r.constraint = false →
      typesetAux O tracer (Introspector.new []) 0
        = typesetAux O ⟨tracer.warnings, r.delayed⟩ (Introspector.new r.document.pages) 1) := by
  refine ⟨rfl, rfl, ?_, fun _ => rfl, ?_⟩
  · intro tracer
    unfold typeset
    rw [typesetAux_congr O O' hl hv 5 0 (by omega)]
  · intro tracer r hok hval
    exact typesetAux_continue O tracer (Introspector.new []) 0 r hok hval (by omega)

/-- C6 witness: instantiated at two syntactically different but extensionally
equal oracles. -/
theorem typeset_fresh_constraint_and_locator_witness :
    (Constraint.new : Constraint Nat) = [] ∧
    Locator.new = (0 : Nat) ∧
    (∀ tracer : Tracer, typeset oracleOk2 tracer = typeset oracleOk tracer) ∧
    (∀ tracer : Tracer,
      typeset oracleOk tracer
        = promoteDelayed (typesetAux oracleOk tracer (Introspector.new []) 0)) ∧
    (∀ (tracer : Tracer) (r : LayoutResult Nat Nat),
      oracleOk.layoutRoot (Introspector.new []) Constraint.new Locator.new = .ok r →
      oracleOk.validate (Introspector.new r.document.pages) r.constraint = false →
      typesetAux oracleOk tracer (Introspector.new []) 0
        = typesetAux oracleOk ⟨tracer.warnings, r.delayed⟩
            (Introspector.new r.document.pages) 1) :=
  typeset_fresh_constraint_and_locator oracleOk oracleOk2 (fun _ => rfl) (fun _ _ => rfl)

/-- C7: the MetaElem data field folds with outer scopes, accumulating rather
than replacing (every annotation of either scope survives), and MetaElem is
an invisible element kind. -/
theorem metaElem_fold_accumulates_and_invisible {D C N L : Type} :
    (∀ e : MetaElem D C N L, e.behaviour = Behaviour.invisible) ∧
    (∀ (inner outer : List (Meta D C N L)) (m : Meta D C N L),
      m ∈ inner ∨ m ∈ outer → m ∈ MetaElem.foldData inner outer) := by
  refine ⟨fun _ => rfl, ?_⟩
  intro inner outer m hm
  unfold MetaElem.foldData
  rcases hm with hm | hm
  · exact List.mem_append_left _ hm
  · exact List.mem_append_right _ hm

/-- C7 witness: concrete instantiation at a one-element Meta set. -/
theorem metaElem_fold_accumulates_and_invisible_witness :
    (MetaElem.mk [] : MetaElem Nat Nat Nat Nat).behaviour = Behaviour.invisible ∧
    (Meta.hide : Meta Nat Nat Nat Nat) ∈ MetaElem.foldData [Meta.hide] [] :=
  ⟨metaElem_fold_accumulates_and_invisible.1 _,
   metaElem_fold_accumulates_and_invisible.2 [Meta.hide] [] Meta.hide
     (Or.inl (List.mem_cons_self _ _))⟩

/-- C8: compile is deterministic: equal evaluation results and extensionally
equal layout and validation behaviour yield equal compile results. -/
theorem compile_deterministic {Page Fact : Type} (hash : Span × String → Nat)
    (ev1 ev2 : Except (List SourceDiagnostic) Unit) (O1 O2 : LayoutOracle Page Fact)
    (tracer : Tracer) (hev : ev1 = ev2)
    (hl : ∀ i, O1.layoutRoot i Constraint.new Locator.new
      = O2.layoutRoot i Constraint.new Locator.new)
    (hv : ∀ i c, O1.validate i c = O2.validate i c) :
    compile hash ev1 O1 tracer = compile hash ev2 O2 tracer := by
  subst hev
  have ht : typeset O1 tracer = typeset O2 tracer := by
    unfold typeset
    rw [typesetAux_congr O2 O1 hl hv 5 0 (by omega)]
  unfold compile
  cases ev1 with
  | error e => rfl
  | ok u => rw [ht]

/-- C8 witness: two compiles over extensionally equal worlds agree. -/
theorem compile_deterministic_witness :
    compile hashC (.ok ()) oracleOk tr0 = compile hashC (.ok ()) oracleOk2 tr0 :=
  compile_deterministic hashC (.ok ()) (.ok ()) oracleOk oracleOk2 tr0 rfl
    (fun _ => rfl) (fun _ _ => rfl)

/-- C10 counterexample: a span with a file id whose source loads fine can
still yield no byte range, so the two stated conditions for a None result are
not exhaustive and the otherwise-case does not return a byte range. -/
theorem worldext_range_counterexample :
    spanC.id = some 0 ∧ worldOkNone.source 0 = .ok srcNone ∧
    WorldExt.range worldOkNone spanC = none :=
  ⟨rfl, rfl, rfl⟩

/-- C10 (amended): range returns None when the span has no file id or when
source(file-id) errors; otherwise it returns whatever byte range the loaded
source reports for the span (which may itself be None). -/
theorem worldext_range_characterization {E : Type} (w : World E) (s : Span) :
    (s.id = none → WorldExt.range w s = none) ∧
    (∀ (fid : FileId) (e : E), s.id = some fid → w.source fid = .error e →
      WorldExt.range w s = none) ∧
    (∀ (fid : FileId) (src : Source), s.id = some fid → w.source fid = .ok src →
      WorldExt.range w s = src.range s) := by
  refine ⟨?_, ?_, ?_⟩
  · intro h
    simp only [WorldExt.range, h]
  · intro fid e h1 h2
    simp only [WorldExt.range, h1, h2]
  · intro fid src h1 h2
    simp only [WorldExt.range, h1, h2]

/-- C10 witness: the loaded-source case delegates to the source byte range. -/
theorem worldext_range_characterization_witness :
    WorldExt.range worldOkNone spanC = srcNone.range spanC :=
  (worldext_range_characterization worldOkNone spanC).2.2 0 srcNone rfl rfl

end Typst
